import Mathlib

/-!
Verification of the joe-app note-taking workspace.

This development shallowly embeds the two core subsystems of the repository:

* the workspace / tab-gesture machine of `src/pages/notes.tsx` (and its
  enhanced variant with vertical drag support), acting on an explicit
  `NotesState` record mirroring the React component's state and refs; and
* the task-item commands of `src/components/SimpleRichTextEditor.tsx`,
  acting on a flat list of typed document nodes.

Pointer coordinates and drag offsets are rationals (browser coordinates can
be fractional and the vertical amplification factor is 1.2).  React state
setters are modelled as immediate record updates, with the convention that
reads of React state inside one handler invocation see the values captured
at entry (the closure snapshot), while refs read and write immediately;
each handler is a pure function from the entry state to the exit state.
External collaborators (the DOM layout, `localStorage`, `Date.now`) are
passed in as explicit parameters.
-/

namespace JoeApp

/-- The drag axis committed for a gesture (the `dragType` React state). -/
inductive DragAxis where
  | horizontal
  | vertical
deriving DecidableEq, Repr

/-- A note, as declared in `src/types/Note.ts`.  `createdAt` is the timestamp
of the `Date`, and `color` is optional. -/
structure Note where
  id : String
  name : String
  content : String
  createdAt : Int
  color : Option String
deriving DecidableEq, Repr

/-- The mutable state of the `Notes` component: React state, refs, and the
external `localStorage` entry for the `notes` key.  `dragOffsetY` is the
per-tab vertical offset map (`dragOffsetY.current`), total with default `0`
(a missing JS entry behaves as `0` in every read of the source).
`tabRefs` records which tab ids have a rendered element
(`tabRefs.current[id]` non-null).  `store` is the persisted note list
(`none` when the key is absent).  `pendingCreate` records that the
delete path has scheduled `createNewNote` via `setTimeout`. -/
structure NotesState where
  notes : List Note
  activeNoteId : Option String
  draggedTabId : Option String
  dragType : Option DragAxis
  isDragging : Bool
  hasDragMoved : Bool
  dragStartX : ℚ
  dragStartY : ℚ
  dragOffsetY : String → ℚ
  tabRefs : String → Bool
  tabSnapping : Bool
  store : Option (List Note)
  pendingCreate : Bool

/-- Pointwise update of a total map, modelling assignment to one key of a
JS object. -/
def updateFn (f : String → ℚ) (k : String) (v : ℚ) : String → ℚ :=
  fun k2 => if k2 = k then v else f k2

/-- `Array.prototype.findIndex`, returning `none` instead of `-1`. -/
def findIndex (p : α → Bool) : List α → Option Nat
  | [] => none
  | a :: l => if p a then some 0 else (findIndex p l).map (· + 1)

/-- `splice(i, 1)`: remove the element at index `i` (no-op past the end). -/
def spliceOut (i : Nat) (l : List α) : List α :=
  l.take i ++ l.drop (i + 1)

/-- `splice(i, 0, a)`: insert `a` at index `i` (append when past the end,
matching JS `splice`). -/
def spliceIn (i : Nat) (a : α) (l : List α) : List α :=
  l.take i ++ a :: l.drop i

/-- Indexed element access (`l[i]` as an `Option`). -/
def nth : List α → Nat → Option α
  | [], _ => none
  | a :: _, 0 => some a
  | _ :: l, n + 1 => nth l n

/-- `reorderTabs` from `notes.tsx`: find the dragged note by id, splice it
out, and splice it back in at `toIndex`. -/
def reorderTabs (fromId : String) (toIndex : Nat) (notes : List Note) : List Note :=
  match findIndex (fun note => note.id == fromId) notes with
  | none => notes
  | some fromIndex =>
    match nth notes fromIndex with
    | none => notes
    | some movedNote => spliceIn toIndex movedNote (spliceOut fromIndex notes)

theorem spliceIn_perm (i : Nat) (a : α) (l : List α) : (spliceIn i a l).Perm (a :: l) := by
  unfold spliceIn
  calc (l.take i ++ a :: l.drop i).Perm (a :: (l.take i ++ l.drop i)) := List.perm_middle
    _ = a :: l := by rw [List.take_append_drop]

theorem nth_mem_perm {l : List α} {i : Nat} {a : α} (h : nth l i = some a) :
    l.Perm (a :: spliceOut i l) := by
  induction l generalizing i with
  | nil => simp [nth] at h
  | cons b t ih =>
    cases i with
    | zero =>
      simp only [nth] at h
      cases h
      simp [spliceOut]
    | succ n =>
      simp only [nth] at h
      have ht := ih h
      have : spliceOut (n + 1) (b :: t) = b :: spliceOut n t := by
        simp [spliceOut, List.take_succ_cons, List.drop_succ_cons]
      rw [this]
      calc (b :: t).Perm (b :: (a :: spliceOut n t)) := ht.cons b
        _ ≈ a :: b :: spliceOut n t := List.Perm.swap a b _

theorem reorderTabs_perm (fromId : String) (toIndex : Nat) (notes : List Note) :
    (reorderTabs fromId toIndex notes).Perm notes := by
  unfold reorderTabs
  cases hf : findIndex (fun note => note.id == fromId) notes with
  | none => exact List.Perm.refl notes
  | some fromIndex =>
    dsimp only
    cases hn : nth notes fromIndex with
    | none => exact List.Perm.refl notes
    | some movedNote =>
      dsimp only
      calc (spliceIn toIndex movedNote (spliceOut fromIndex notes)).Perm
            (movedNote :: spliceOut fromIndex notes) := spliceIn_perm _ _ _
        _ ≈ notes := (nth_mem_perm hn).symm

/-- `resetTabPosition` (enhanced `notes.tsx`, `part_001` lines 139-157): when
the tab's element exists, clear its visual transform and set its stored
offset back to `0`; when the reset tab is the currently dragged one, clear
`draggedTabId` and `dragType`. -/
def resetTabPosition (id : String) (st : NotesState) : NotesState :=
  let st1 := if st.tabRefs id then { st with dragOffsetY := updateFn st.dragOffsetY id 0 } else st
  if st.draggedTabId = some id then { st1 with draggedTabId := none, dragType := none } else st1

/-- `createNewNote`: reset any dragged tab, append the freshly built note
(whose id, name and creation time come from `Date.now` / `toLocaleDateString`
and are therefore passed in as `newNote`), and make it active. -/
def createNewNote (newNote : Note) (st : NotesState) : NotesState :=
  let st1 := match st.draggedTabId with
    | some tid => resetTabPosition tid st
    | none => st
  { st1 with notes := st1.notes ++ [newNote], activeNoteId := some newNote.id }

/-- The `setTimeout(() => createNewNote(), 50)` callback scheduled by
`deleteNote`: runs `createNewNote` once the deferred timer fires. -/
def runPendingCreate (newNote : Note) (st : NotesState) : NotesState :=
  if st.pendingCreate then createNewNote newNote { st with pendingCreate := false } else st

/-- `deleteNote` from `src/pages/notes.tsx` (lines 87-136, the "ENHANCED
FIXED FUNCTION"): filter the note out, write the filtered list straight to
`localStorage`, clear drag state for the deleted tab, fix up the active
selection, and — when the deleted note was the only one — schedule
`createNewNote` via `setTimeout` (recorded as `pendingCreate`). -/
def deleteNote (id : String) (st : NotesState) : NotesState :=
  let currentNotes := st.notes
  let isLastNote := currentNotes.length ≤ 1
  let isActiveNote := st.activeNoteId = some id
  match findIndex (fun note => note.id == id) currentNotes with
  | none => st
  | some noteIndex =>
    let updatedNotes := currentNotes.filter (fun note => note.id != id)
    let st1 := { st with notes := updatedNotes, store := some updatedNotes }
    let st2 := if st1.draggedTabId = some id then
        { st1 with draggedTabId := none, dragType := none }
      else st1
    let st3 := if isActiveNote then
        if updatedNotes.length > 0 then
          match nth updatedNotes (min noteIndex (updatedNotes.length - 1)) with
          | some n => { st2 with activeNoteId := some n.id }
          | none => st2
        else { st2 with activeNoteId := none }
      else st2
    if isLastNote then { st3 with pendingCreate := true } else st3

/-- `deleteNote` from the enhanced variant (`part_001` lines 91-111):
filter the note out, drop its drag offset, clear the dragged-tab id, and
either re-point the active selection at the first remaining note or — when
the deleted note was the only one — call `createNewNote` directly within
the same invocation.  The length tests read the pre-delete `notes`
closure value. -/
def deleteNoteEnhanced (id : String) (newNote : Note) (st : NotesState) : NotesState :=
  let st1 := { st with notes := st.notes.filter (fun note => note.id != id) }
  let st2 := { st1 with dragOffsetY := updateFn st1.dragOffsetY id 0 }
  let st3 := if st.draggedTabId = some id then { st2 with draggedTabId := none } else st2
  if st.activeNoteId = some id ∧ st.notes.length > 1 then
    let remainingNotes := st.notes.filter (fun note => note.id != id)
    match nth remainingNotes 0 with
    | some n => { st3 with activeNoteId := some n.id }
    | none => st3
  else if st.notes.length = 1 then createNewNote newNote st3
  else st3

/-- The save effect (`useEffect` on `[notes]`, lines 461-465): persist the
note list to `localStorage` only when it is non-empty. -/
def saveNotesEffect (st : NotesState) : NotesState :=
  if st.notes.length > 0 then { st with store := some st.notes } else st

/-- `[...notes].sort((a, b) => b.createdAt - a.createdAt)[0]`: the first
note carrying the maximal `createdAt` (JS `sort` is stable, so ties keep
their original order and the fold keeping the first strict maximum agrees
with the sorted head). -/
def mostRecentNote : List Note → Option Note
  | [] => none
  | n :: ns => some (ns.foldl (fun best m => if m.createdAt > best.createdAt then m else best) n)

/-- The load effect (`useEffect` on mount, lines 416-441).  `saved` is the
outcome of `localStorage.getItem('notes')` combined with `JSON.parse` and
date revival: `none` when the key is absent, `some (.error e)` when the
stored string fails to parse, `some (.ok parsed)` on success.  On success
the parsed notes are installed and the most recent becomes active; on parse
failure the error is logged and nothing else happens; when the key is
absent a default note is created. -/
def loadNotes (saved : Option (Except String (List Note))) (defaultNote : Note)
    (st : NotesState) : NotesState :=
  match saved with
  | some (Except.ok parsedNotes) =>
    let st1 := { st with notes := parsedNotes }
    match mostRecentNote parsedNotes with
    | some n => { st1 with activeNoteId := some n.id }
    | none => st1
  | some (Except.error _) => st
  | none => createNewNote defaultNote st

/-- `MAX_DRAG_DISTANCE` from the enhanced variant. -/
def MAX_DRAG_DISTANCE : ℚ := 100

/-- `dragThreshold` from the enhanced variant (near-zero for immediate
response). -/
def dragThreshold : ℚ := 1

/-- The vertical branch of `handleDragMove` (`part_001` lines 334-356):
amplify the upward delta by 1.2, clamp the accumulated offset into
`[0, MAX_DRAG_DISTANCE]`, store it, and rebase the vertical reference to
the current pointer `y`. -/
def dragMoveVertical (draggedId : String) (deltaY ey : ℚ) (st : NotesState) : NotesState :=
  let dragUpAmount := -deltaY * (6 / 5)
  let currentOffset := st.dragOffsetY draggedId
  let newOffset := min (max 0 (currentOffset + dragUpAmount)) MAX_DRAG_DISTANCE
  { st with dragOffsetY := updateFn st.dragOffsetY draggedId newOffset, dragStartY := ey }

/-- The live bounding box data of one rendered tab, as collected by
`getTabPositions`. -/
structure TabPos where
  id : String
  left : ℚ
  width : ℚ
  index : Nat
deriving DecidableEq, Repr

/-- Pair each element with its index, mirroring `forEach`'s index
argument. -/
def withIdxFrom : Nat → List α → List (Nat × α)
  | _, [] => []
  | i, a :: l => (i, a) :: withIdxFrom (i + 1) l

/-- `getTabPositions`: for every note whose tab element is rendered, record
its id, live left edge, width and note index.  `rects` is the external
layout oracle (`getBoundingClientRect`). -/
def getTabPositions (rects : String → Option (ℚ × ℚ)) (notes : List Note) : List TabPos :=
  (withIdxFrom 0 notes).filterMap (fun p =>
    match rects p.2.id with
    | some (l, w) => some ⟨p.2.id, l, w, p.1⟩
    | none => none)

/-- The midpoint-crossing search of the horizontal branch: walk the
positions in order and return the first index `i ≠ currentIndex` whose
midpoint the dragged tab's candidate position has crossed in the direction
of travel. -/
def findCrossing (positions : List TabPos) (currentIndex : Nat) (currentPosition : ℚ) :
    Option Nat :=
  ((withIdxFrom 0 positions).find? (fun p =>
    let centerPoint := p.2.left + p.2.width / 2
    decide ((p.1 < currentIndex ∧ currentPosition < centerPoint) ∨
            (p.1 > currentIndex ∧ currentPosition > centerPoint)))).map (·.1)

/-- The horizontal branch of `handleDragMove` (`part_001` lines 357-386):
recompute the live tab positions, locate the dragged tab, compute its
candidate position from the cumulative delta against the horizontal origin,
and on the first midpoint crossing splice the note to that index and rebase
the horizontal origin to the current pointer `x`. -/
def dragMoveHorizontal (draggedId : String) (ex : ℚ) (rects : String → Option (ℚ × ℚ))
    (st : NotesState) : NotesState :=
  let tabPositions := getTabPositions rects st.notes
  match findIndex (fun pos => pos.id == draggedId) tabPositions with
  | none => st
  | some currentIndex =>
    match nth tabPositions currentIndex with
    | none => st
    | some curPos =>
      let offsetX := ex - st.dragStartX
      let currentPosition := curPos.left + offsetX
      match findCrossing tabPositions currentIndex currentPosition with
      | some i => { st with notes := reorderTabs draggedId i st.notes, dragStartX := ex }
      | none => st

/-- `handleDragMove` of the enhanced variant (`part_001` lines 292-388).
Reads of the React state `dragType` use the closure snapshot `st.dragType`
throughout the invocation, so on the move that first commits an axis the
handler records the axis (and `hasDragMoved`) and returns, processing the
committed axis only from the next event on. -/
def handleDragMove (rects : String → Option (ℚ × ℚ)) (ex ey : ℚ) (st : NotesState) :
    NotesState :=
  if st.isDragging = false then st else
  match st.draggedTabId with
  | none => st
  | some draggedId =>
    let deltaX := ex - st.dragStartX
    let deltaY := ey - st.dragStartY
    let st1 :=
      if |deltaX| > dragThreshold ∨ |deltaY| > dragThreshold then
        let stMoved := { st with hasDragMoved := true }
        let dragDirection := if |deltaX| > |deltaY| then DragAxis.horizontal else DragAxis.vertical
        if st.dragType = none then
          { stMoved with dragType := some dragDirection }
        else stMoved
      else st
    if st1.hasDragMoved = true then
      if st.tabRefs draggedId = false then st1
      else if st.dragType = none then st1
      else if st.dragType = some DragAxis.vertical then dragMoveVertical draggedId deltaY ey st1
      else dragMoveHorizontal draggedId ex rects st1
    else st1

/-- `handleDragEnd` of the enhanced variant (`part_001` lines 391-451):
no movement means a pure click (activate the tab); a horizontal drag just
clears the drag bookkeeping; a vertical drag band-snaps the stored offset
(`<15` collapse, `<50` partial at 40, otherwise full at 100) and sets the
transient snapping marker. -/
def handleDragEnd (st : NotesState) : NotesState :=
  match st.draggedTabId with
  | none => st
  | some draggedId =>
    let st1 := { st with isDragging := false }
    if st1.hasDragMoved = false then
      { st1 with activeNoteId := some draggedId }
    else if st1.dragType = some DragAxis.horizontal then
      { st1 with draggedTabId := none, dragType := none }
    else if st1.dragType = some DragAxis.vertical then
      let currentOffset := st1.dragOffsetY draggedId
      if st1.tabRefs draggedId = false then st1
      else
        let st2 := { st1 with tabSnapping := true }
        if currentOffset < 15 then resetTabPosition draggedId st2
        else if currentOffset < 50 then
          { st2 with dragOffsetY := updateFn st2.dragOffsetY draggedId 40 }
        else
          { st2 with dragOffsetY := updateFn st2.dragOffsetY draggedId MAX_DRAG_DISTANCE }
    else st1

/-- `handleTabDoubleClick` of the enhanced variant (`part_001` lines
210-237): ignore double clicks landing on an option button or colour
swatch; otherwise a tab with a positive stored offset is reset, and any
other tab is extended straight to `MAX_DRAG_DISTANCE` (when its element is
rendered). -/
def handleTabDoubleClick (onInteractiveChild : Bool) (id : String) (st : NotesState) :
    NotesState :=
  if onInteractiveChild then st
  else if 0 < st.dragOffsetY id then resetTabPosition id st
  else
    let st1 := { st with draggedTabId := some id }
    if st1.tabRefs id then
      { st1 with dragOffsetY := updateFn st1.dragOffsetY id MAX_DRAG_DISTANCE }
    else st1

/-- A top-level child of the editing surface of
`SimpleRichTextEditor.tsx`.  `text` is a bare DOM text node (not an
element); `taskItem` is a `div.taskItem` holding a checkbox glyph and the
task text; `lineBreak` is a `<br>`; `block` stands for any other element
child (heading, list, span), carrying only its text content. -/
inductive DNode where
  | text (run : String)
  | taskItem (checked : Bool) (taskText : String)
  | lineBreak
  | block (content : String)
deriving DecidableEq, Repr

/-- Whether a DOM child is an Element (everything except bare text
nodes). -/
def DNode.isElement : DNode → Bool
  | .text _ => false
  | _ => true

/-- Where the caret is asked to land after a structural edit. -/
inductive CaretPos where
  | atDefault
  | endOfText (idx : Nat)
  | endOfTaskText (idx : Nat)
deriving DecidableEq, Repr

/-- `previousElementSibling` of the child at index `i`: the nearest earlier
sibling that is an element, together with its index — bare text nodes are
skipped. -/
def previousElementSibling (doc : List DNode) (i : Nat) : Option (Nat × DNode) :=
  ((withIdxFrom 0 (doc.take i)).reverse).find? (fun p => p.2.isElement)

/-- JS `String.prototype.trim` whitespace (the characters relevant to task
text: space, tab, newline, carriage return, form feed, vertical tab and
no-break space are all trimmed by JS). -/
def isJsWhitespace (c : Char) : Bool :=
  c = ' ' || c = '\t' || c = '\n' || c = '\r' || c = '\u000B' || c = '\u000C' || c = '\u00A0'

/-- `!textContent || textContent.trim() === ''`: the string is empty or
whitespace-only. -/
def isBlank (s : String) : Bool :=
  s.toList.all isJsWhitespace

/-- The Backspace branch of `handleKeyDown` (`SimpleRichTextEditor.tsx`
lines 96-142).  The caret sits at character offset `offset` of the task
text of the child at index `i` (the selection is collapsed).  When that
child is a task item whose text is empty or whitespace-only and the offset
is `0`, the default deletion is suppressed and the whole task item is
removed; the caret moves to the end of the previous element sibling
(`previousElementSibling`, computed before the removal), descending into
the task text when that sibling is itself a task item, and stays at the
surface default when there is none.  Returns `none` when the branch does
not fire (default Backspace behaviour proceeds). -/
def backspaceInTaskContext (doc : List DNode) (i offset : Nat) :
    Option (List DNode × CaretPos) :=
  match nth doc i with
  | some (DNode.taskItem _ taskText) =>
    if offset = 0 ∧ isBlank taskText = true then
      let newDoc := spliceOut i doc
      let caret := match previousElementSibling doc i with
        | some (j, DNode.taskItem _ _) => CaretPos.endOfTaskText j
        | some (j, _) => CaretPos.endOfText j
        | none => CaretPos.atDefault
      some (newDoc, caret)
    else none
  | _ => none

/-- The "not already inside a task item" branch of `addTaskItem`
(`SimpleRichTextEditor.tsx` lines 291-337).  The document is split at the
caret into `before` and `after` (the selected content, whose string form is
`selectedText`, has been consumed by `range.deleteContents()`).  A new task
item seeded with the selection (or a no-break space when empty) is inserted
at the caret, and a `<br>` is then placed right after it — via
`insertBefore` when the task item has a next sibling, via `appendChild`
when it does not. -/
def addTaskItemOutside (before after : List DNode) (selectedText : String) : List DNode :=
  let seededText := if selectedText = "" then "\u00A0" else selectedText
  let task := DNode.taskItem false seededText
  match after with
  | next :: rest => before ++ task :: DNode.lineBreak :: next :: rest
  | [] => before ++ [task, DNode.lineBreak]

/-- The observable state of one task checkbox: the glyph held in the
checkbox span's `innerHTML` and whether the adjacent task-text span carries
the `taskCompleted` class. -/
structure TaskCheckbox where
  innerHTML : Char
  taskCompleted : Bool
deriving DecidableEq, Repr

/-- `toggleTaskCheckbox` (`SimpleRichTextEditor.tsx` lines 346-356): an
unchecked glyph becomes checked and the completed style is added to the
text span; anything else becomes unchecked and the style is removed. -/
def toggleTaskCheckbox (cb : TaskCheckbox) : TaskCheckbox :=
  if cb.innerHTML = '☐' then { innerHTML := '☑', taskCompleted := true }
  else { innerHTML := '☐', taskCompleted := false }

/-- Whether the checkbox glyph reads as checked. -/
def TaskCheckbox.checked (cb : TaskCheckbox) : Prop :=
  cb.innerHTML = '☑'

instance : DecidablePred TaskCheckbox.checked := fun cb =>
  inferInstanceAs (Decidable (cb.innerHTML = '☑'))

/-- Invariant I1 of the spec: the checked flag and the completed-style flag
of a task item always agree. -/
def invariantI1 (cb : TaskCheckbox) : Prop :=
  cb.checked ↔ cb.taskCompleted = true

instance : DecidablePred invariantI1 := fun cb => by
  unfold invariantI1
  infer_instance

/-! ### Helper lemmas -/

theorem resetTabPosition_notes (id : String) (st : NotesState) :
    (resetTabPosition id st).notes = st.notes := by
  unfold resetTabPosition
  split <;> split <;> rfl

theorem createNewNote_notes (n : Note) (st : NotesState) :
    (createNewNote n st).notes = st.notes ++ [n] := by
  unfold createNewNote
  cases st.draggedTabId <;> simp [resetTabPosition_notes]

theorem createNewNote_activeNoteId (n : Note) (st : NotesState) :
    (createNewNote n st).activeNoteId = some n.id := by
  unfold createNewNote
  cases st.draggedTabId <;> rfl

/-! ### A baseline state for concrete evaluations -/

/-- A fresh workspace state: no notes, nothing dragged, all offsets `0`,
every tab element rendered, no persisted entry. -/
def emptyState : NotesState where
  notes := []
  activeNoteId := none
  draggedTabId := none
  dragType := none
  isDragging := false
  hasDragMoved := false
  dragStartX := 0
  dragStartY := 0
  dragOffsetY := fun _ => 0
  tabRefs := fun _ => true
  tabSnapping := false
  store := none
  pendingCreate := false

/-- A concrete default note (id from `Date.now().toString()`, name from
`toLocaleDateString`). -/
def defaultNoteJan : Note where
  id := "1"
  name := "January 1, 2026"
  content := ""
  createdAt := 1767225600000
  color := some "#5f8bbf"

/-! ### Claim C6 -/

/-- Claim C6: `toggleCheckbox` is an involution preserving invariant I1 —
on a checkbox whose glyph is one of the two states and whose completed
style agrees with it, applying `toggleTaskCheckbox` twice restores both the
checked flag and the completed-style flag, each single application flips
the checked state, and I1 still holds after one application. -/
theorem toggleTaskCheckbox_involution (cb : TaskCheckbox)
    (hglyph : cb.innerHTML = '☐' ∨ cb.innerHTML = '☑')
    (hI1 : invariantI1 cb) :
    toggleTaskCheckbox (toggleTaskCheckbox cb) = cb ∧
    invariantI1 (toggleTaskCheckbox cb) ∧
    ((toggleTaskCheckbox cb).checked ↔ ¬ cb.checked) := by
  obtain ⟨g, s⟩ := cb
  rcases hglyph with h | h <;> subst h <;> cases s <;>
    first
      | exact absurd hI1 (by decide)
      | exact ⟨by decide, by decide, by decide⟩

/-- Witness for C6 at the concrete unchecked, unstyled checkbox. -/
theorem toggleTaskCheckbox_involution_witness :
    toggleTaskCheckbox (toggleTaskCheckbox ⟨'☐', false⟩) = ⟨'☐', false⟩ ∧
    invariantI1 (toggleTaskCheckbox ⟨'☐', false⟩) ∧
    ((toggleTaskCheckbox ⟨'☐', false⟩).checked ↔ ¬ (TaskCheckbox.mk '☐' false).checked) :=
  toggleTaskCheckbox_involution ⟨'☐', false⟩ (Or.inl rfl) (by decide)

/-! ### Claim C7 -/

/-- Claim C7 (code bug): inserting a task item with the caret at the end of
the document — so that the new task item is the last top-level node and has
no next sibling — still appends a `LineBreak` after it, because the
`appendChild` branch of `addTaskItem` runs unconditionally; the code's own
comment ("add a line break after the task item if it's not at the end")
and the spec say no `LineBreak` should be appended in this case. -/
theorem addTaskItemOutside_appends_linebreak_at_end :
    addTaskItemOutside [DNode.text "hello"] [] "" =
      [DNode.text "hello", DNode.taskItem false " ", DNode.lineBreak] := by
  decide

/-! ### Claim C2 -/

/-- Counterexample to claim C2: when the stored string fails to parse, the
load effect only logs — the workspace ends the load with an **empty** note
list, not with a synthesized default note (`createNewNote` runs only when
the storage key is absent). -/
theorem loadNotes_parse_failure_keeps_empty :
    (loadNotes (some (Except.error "Unexpected token")) defaultNoteJan emptyState).notes = [] :=
  rfl

/-- Claim C2 as amended: a stored string that fails to parse leaves the
state exactly as it was (the error is only logged), so a load that starts
from the initial empty state ends with an empty note list; the default note
is synthesized exactly when no stored value exists, in which case it is
appended and becomes active. -/
theorem loadNotes_parse_failure_amended (e : String) (d : Note) (st : NotesState) :
    loadNotes (some (Except.error e)) d st = st ∧
    (loadNotes none d st).notes = st.notes ++ [d] ∧
    (loadNotes none d st).activeNoteId = some d.id := by
  refine ⟨rfl, ?_, ?_⟩
  · show (createNewNote d st).notes = st.notes ++ [d]
    exact createNewNote_notes d st
  · show (createNewNote d st).activeNoteId = some d.id
    exact createNewNote_activeNoteId d st

/-! ### Claim C3 -/

/-- A drag-move event: the live layout oracle plus the pointer
coordinates. -/
def runDragMoves (evs : List ((String → Option (ℚ × ℚ)) × ℚ × ℚ)) (st : NotesState) :
    NotesState :=
  evs.foldl (fun s e => handleDragMove e.1 e.2.1 e.2.2 s) st

/-- An arbitrary sequence of raw `reorderTabs` calls. -/
def applyReorders (ops : List (String × Nat)) (notes : List Note) : List Note :=
  ops.foldl (fun ns op => reorderTabs op.1 op.2 ns) notes

theorem dragMoveVertical_notes (d : String) (dy ey : ℚ) (st : NotesState) :
    (dragMoveVertical d dy ey st).notes = st.notes := rfl

theorem dragMoveHorizontal_notes_perm (d : String) (ex : ℚ)
    (rects : String → Option (ℚ × ℚ)) (st : NotesState) :
    ((dragMoveHorizontal d ex rects st).notes).Perm st.notes := by
  unfold dragMoveHorizontal
  dsimp only
  repeat' split
  all_goals try dsimp only
  all_goals first
    | exact List.Perm.refl _
    | exact reorderTabs_perm _ _ _

theorem handleDragMove_notes_perm (rects : String → Option (ℚ × ℚ)) (ex ey : ℚ)
    (st : NotesState) : ((handleDragMove rects ex ey st).notes).Perm st.notes := by
  unfold handleDragMove
  dsimp only
  repeat' split
  all_goals try dsimp only
  all_goals first
    | exact List.Perm.refl _
    | exact (dragMoveHorizontal_notes_perm _ _ _ _).trans (List.Perm.refl _)

/-- Claim C3: over any sequence of horizontal-reorder operations — whether
raw `reorderTabs` calls or full `handleDragMove` events whose midpoint
crossings drive them — the resulting note-id sequence is a permutation of
the original: no id is lost, duplicated, or invented. -/
theorem reorder_sequences_preserve_ids :
    (∀ evs st, (((runDragMoves evs st).notes).map Note.id).Perm ((st.notes).map Note.id)) ∧
    (∀ ops notes, ((applyReorders ops notes).map Note.id).Perm (notes.map Note.id)) := by
  constructor
  · intro evs
    induction evs with
    | nil => intro st; exact List.Perm.refl _
    | cons e rest ih =>
      intro st
      have hstep := (handleDragMove_notes_perm e.1 e.2.1 e.2.2 st).map Note.id
      exact (ih _).trans hstep
  · intro ops
    induction ops with
    | nil => intro notes; exact List.Perm.refl _
    | cons op rest ih =>
      intro notes
      have hstep := (reorderTabs_perm op.1 op.2 notes).map Note.id
      exact (ih _).trans hstep

/-! ### Claim C5 -/

/-- Every stored per-tab drag offset lies in `[0, MAX_DRAG_DISTANCE]`. -/
def OffsetsInRange (st : NotesState) : Prop :=
  ∀ id, 0 ≤ st.dragOffsetY id ∧ st.dragOffsetY id ≤ MAX_DRAG_DISTANCE

theorem dragMoveVertical_offsets (d : String) (dy ey : ℚ) (st : NotesState)
    (h : OffsetsInRange st) : OffsetsInRange (dragMoveVertical d dy ey st) := by
  intro id
  unfold dragMoveVertical updateFn
  dsimp only
  by_cases hid : id = d
  · rw [if_pos hid]
    refine ⟨le_min (le_max_left 0 _) ?_, min_le_right _ _⟩
    norm_num [MAX_DRAG_DISTANCE]
  · rw [if_neg hid]
    exact h id

theorem dragMoveHorizontal_dragOffsetY (d : String) (ex : ℚ)
    (rects : String → Option (ℚ × ℚ)) (st : NotesState) :
    (dragMoveHorizontal d ex rects st).dragOffsetY = st.dragOffsetY := by
  unfold dragMoveHorizontal
  dsimp only
  repeat' split
  all_goals rfl

theorem handleDragMove_dragOffsetY (rects : String → Option (ℚ × ℚ)) (ex ey : ℚ)
    (st : NotesState) :
    (handleDragMove rects ex ey st).dragOffsetY = st.dragOffsetY ∨
    ∃ d v, 0 ≤ v ∧ v ≤ MAX_DRAG_DISTANCE ∧
      (handleDragMove rects ex ey st).dragOffsetY = updateFn st.dragOffsetY d v := by
  unfold handleDragMove
  dsimp only
  repeat' split
  all_goals first
    | exact Or.inl rfl
    | exact Or.inl (dragMoveHorizontal_dragOffsetY _ _ _ _)
    | exact Or.inr ⟨_, _, le_min (le_max_left 0 _) (by norm_num [MAX_DRAG_DISTANCE]),
        min_le_right _ _, rfl⟩

theorem handleDragMove_offsets (rects : String → Option (ℚ × ℚ)) (ex ey : ℚ)
    (st : NotesState) (h : OffsetsInRange st) :
    OffsetsInRange (handleDragMove rects ex ey st) := by
  rcases handleDragMove_dragOffsetY rects ex ey st with heq | ⟨d, v, hv0, hv1, heq⟩
  · intro id
    rw [heq]
    exact h id
  · intro id
    rw [heq]
    unfold updateFn
    by_cases hid : id = d
    · rw [if_pos hid]; exact ⟨hv0, hv1⟩
    · rw [if_neg hid]; exact h id

/-- Claim C5: after any sequence of drag-move events the stored drag
offsets all remain within `[0, 100]` — every vertical update stores
`clamp(offset + (-dy * 1.2), 0, 100)` against the rebased reference and no
other move-path write leaves the interval. -/
theorem dragOffset_stays_in_range (evs : List ((String → Option (ℚ × ℚ)) × ℚ × ℚ))
    (st : NotesState) (h : OffsetsInRange st) : OffsetsInRange (runDragMoves evs st) := by
  induction evs generalizing st with
  | nil => exact h
  | cons e rest ih => exact ih _ (handleDragMove_offsets e.1 e.2.1 e.2.2 st h)

/-- A mid-gesture state: tab `a` is being dragged vertically and has
already moved. -/
def vertMoveState : NotesState :=
  { emptyState with
      notes := [defaultNoteJan]
      activeNoteId := some "1"
      draggedTabId := some "a"
      dragType := some DragAxis.vertical
      isDragging := true
      hasDragMoved := true }

/-- Witness for C5: two concrete drag-move events (a large upward move and
a large downward move) starting from the fresh state keep every offset in
range. -/
theorem dragOffset_stays_in_range_witness :
    OffsetsInRange vertMoveState ∧
    OffsetsInRange (runDragMoves
      [(fun _ => some (0, 60), 0, -500), (fun _ => some (0, 60), 0, 900)] vertMoveState) := by
  have h : OffsetsInRange vertMoveState := by
    intro id
    constructor <;> norm_num [vertMoveState, emptyState, MAX_DRAG_DISTANCE]
  exact ⟨h, dragOffset_stays_in_range _ _ h⟩

/-! ### Claim C4 -/

/-- Claim C4: for a vertical-axis gesture that has moved (on a rendered
tab), `handleDragEnd` band-snaps the stored offset by its final value —
below 15 it collapses to 0, in `[15, 50)` it snaps to exactly 40 (the
partial band), and at 50 or above it snaps to exactly 100 (the full
band). -/
theorem handleDragEnd_band_snap (st : NotesState) (id : String)
    (h1 : st.draggedTabId = some id) (h2 : st.hasDragMoved = true)
    (h3 : st.dragType = some DragAxis.vertical) (h4 : st.tabRefs id = true) :
    (st.dragOffsetY id < 15 → (handleDragEnd st).dragOffsetY id = 0) ∧
    (15 ≤ st.dragOffsetY id → st.dragOffsetY id < 50 →
      (handleDragEnd st).dragOffsetY id = 40) ∧
    (50 ≤ st.dragOffsetY id → (handleDragEnd st).dragOffsetY id = 100) := by
  refine ⟨fun hlt => ?_, fun hge hlt => ?_, fun hge => ?_⟩
  · simp [handleDragEnd, h1, h2, h3, h4, hlt, resetTabPosition, updateFn]
  · have hn : ¬ st.dragOffsetY id < 15 := not_lt.mpr hge
    simp [handleDragEnd, h1, h2, h3, h4, hn, hlt, updateFn]
  · have hn15 : ¬ st.dragOffsetY id < 15 := not_lt.mpr (le_trans (by norm_num) hge)
    have hn50 : ¬ st.dragOffsetY id < 50 := not_lt.mpr hge
    simp [handleDragEnd, h1, h2, h3, h4, hn15, hn50, updateFn, MAX_DRAG_DISTANCE]

/-- A mid-gesture vertical state over tab `a` with a given accumulated
offset. -/
def vertEndState (o : ℚ) : NotesState :=
  { emptyState with
      notes := [defaultNoteJan]
      draggedTabId := some "a"
      dragType := some DragAxis.vertical
      isDragging := true
      hasDragMoved := true
      dragOffsetY := updateFn (fun _ => 0) "a" o }

/-- Witness for C4 at final offsets 7, 30 and 66 — in particular the
gesture ending at offset 30 snaps to 40, not 30. -/
theorem handleDragEnd_band_snap_witness :
    (handleDragEnd (vertEndState 7)).dragOffsetY "a" = 0 ∧
    (handleDragEnd (vertEndState 30)).dragOffsetY "a" = 40 ∧
    (handleDragEnd (vertEndState 66)).dragOffsetY "a" = 100 := by
  have h7 := handleDragEnd_band_snap (vertEndState 7) "a" rfl rfl rfl rfl
  have h30 := handleDragEnd_band_snap (vertEndState 30) "a" rfl rfl rfl rfl
  have h66 := handleDragEnd_band_snap (vertEndState 66) "a" rfl rfl rfl rfl
  have e7 : (vertEndState 7).dragOffsetY "a" = 7 := by
    simp [vertEndState, emptyState, updateFn]
  have e30 : (vertEndState 30).dragOffsetY "a" = 30 := by
    simp [vertEndState, emptyState, updateFn]
  have e66 : (vertEndState 66).dragOffsetY "a" = 66 := by
    simp [vertEndState, emptyState, updateFn]
  exact ⟨h7.1 (by rw [e7]; norm_num),
    h30.2.1 (by rw [e30]; norm_num) (by rw [e30]; norm_num),
    h66.2.2 (by rw [e66]; norm_num)⟩

/-! ### Claim C8 -/

/-- A state whose tab `a` sits in the partial band (stored offset 40). -/
def partialTabState : NotesState :=
  { emptyState with
      notes := [defaultNoteJan]
      draggedTabId := some "a"
      dragOffsetY := updateFn (fun _ => 0) "a" 40 }

/-- Counterexample to claim C8: double-clicking a tab in the **partial**
band does not extend it to full — because the enhanced variant branches on
`dragOffsetY[id] > 0`, a partial tab (offset 40) is collapsed to 0 instead
of going to 100. -/
theorem handleTabDoubleClick_partial_collapses :
    (handleTabDoubleClick false "a" partialTabState).dragOffsetY "a" = 0 ∧
    (0 : ℚ) ≠ 100 := by
  constructor
  · simp [handleTabDoubleClick, partialTabState, emptyState, resetTabPosition, updateFn]
  · norm_num

/-- Claim C8 as amended: `toggleExtension` collapses to 0 any tab whose
stored offset is positive — partial and full alike — and extends a tab at
offset 0 directly to full (100), bypassing the banding thresholds. -/
theorem handleTabDoubleClick_toggle (st : NotesState) (id : String)
    (h : st.tabRefs id = true) :
    (0 < st.dragOffsetY id → (handleTabDoubleClick false id st).dragOffsetY id = 0) ∧
    (¬ 0 < st.dragOffsetY id →
      (handleTabDoubleClick false id st).dragOffsetY id = 100) := by
  refine ⟨fun hpos => ?_, fun hzero => ?_⟩
  · simp [handleTabDoubleClick, hpos, resetTabPosition, h]
    split <;> simp [updateFn]
  · simp [handleTabDoubleClick, hzero, h, updateFn, MAX_DRAG_DISTANCE]

/-- A state whose tab `a` is fully collapsed (offset 0). -/
def collapsedTabState : NotesState :=
  { emptyState with notes := [defaultNoteJan] }

/-- Witness for C8 (amended): a full tab (offset 100) collapses to 0 and a
collapsed tab extends straight to 100. -/
theorem handleTabDoubleClick_toggle_witness :
    (handleTabDoubleClick false "a"
      { emptyState with dragOffsetY := updateFn (fun _ => 0) "a" 100 }).dragOffsetY "a" = 0 ∧
    (handleTabDoubleClick false "a" collapsedTabState).dragOffsetY "a" = 100 := by
  constructor
  · exact (handleTabDoubleClick_toggle _ "a" rfl).1 (by simp [emptyState, updateFn])
  · exact (handleTabDoubleClick_toggle _ "a" rfl).2 (by simp [collapsedTabState, emptyState])

/-! ### Claim C9 -/

/-- Counterexample to claim C9: with the document `[Text "hi", TaskItem ""]`
and the caret collapsed at offset 0 in the empty task text, the task item
is removed but the caret does **not** move to the end of the previous
top-level sibling `Text "hi"` — `previousElementSibling` skips bare text
nodes, finds no element, and the caret is left at the surface default. -/
theorem backspace_text_sibling_skipped :
    backspaceInTaskContext [DNode.text "hi", DNode.taskItem false ""] 1 0 =
      some ([DNode.text "hi"], CaretPos.atDefault) ∧
    CaretPos.atDefault ≠ CaretPos.endOfText 0 := by
  decide

/-- Claim C9 as amended: when the caret is collapsed at offset 0 inside a
task item whose text is empty or whitespace-only, the backspace branch
fires (suppressing the default deletion), removes exactly that task item,
and moves the caret to the end of the previous top-level **element**
sibling when one exists — bare text-run siblings are skipped — descending
into that sibling's task text when it is itself a task item, and leaves
the caret at the surface default when no element precedes it. -/
theorem backspaceInTaskContext_removes_blank_item (doc : List DNode) (i : Nat)
    (c : Bool) (txt : String)
    (hi : nth doc i = some (DNode.taskItem c txt)) (hb : isBlank txt = true) :
    ∃ caret : CaretPos,
      backspaceInTaskContext doc i 0 = some (spliceOut i doc, caret) ∧
      (previousElementSibling doc i = none → caret = CaretPos.atDefault) ∧
      (∀ j cc tt, previousElementSibling doc i = some (j, DNode.taskItem cc tt) →
        caret = CaretPos.endOfTaskText j) ∧
      (∀ j p, previousElementSibling doc i = some (j, p) →
        (∀ cc tt, p ≠ DNode.taskItem cc tt) → caret = CaretPos.endOfText j) := by
  refine ⟨(match previousElementSibling doc i with
    | some (j, DNode.taskItem _ _) => CaretPos.endOfTaskText j
    | some (j, _) => CaretPos.endOfText j
    | none => CaretPos.atDefault), ?_, ?_, ?_, ?_⟩
  · unfold backspaceInTaskContext
    rw [hi]
    simp [hb]
  · intro hnone
    rw [hnone]
  · intro j cc tt hsome
    rw [hsome]
  · intro j p hsome hne
    rw [hsome]
    cases p with
    | taskItem cc tt => exact absurd rfl (hne cc tt)
    | text run => rfl
    | lineBreak => rfl
    | block content => rfl

/-- Witness for C9 at a concrete two-task document: deleting the blank
second task lands the caret in the first task's text. -/
theorem backspaceInTaskContext_removes_blank_item_witness :
    ∃ caret : CaretPos,
      backspaceInTaskContext [DNode.taskItem false "x", DNode.taskItem false " "] 1 0 =
        some (spliceOut 1 [DNode.taskItem false "x", DNode.taskItem false " "], caret) ∧
      (previousElementSibling [DNode.taskItem false "x", DNode.taskItem false " "] 1 = none →
        caret = CaretPos.atDefault) ∧
      (∀ j cc tt,
        previousElementSibling [DNode.taskItem false "x", DNode.taskItem false " "] 1 =
          some (j, DNode.taskItem cc tt) → caret = CaretPos.endOfTaskText j) ∧
      (∀ j p,
        previousElementSibling [DNode.taskItem false "x", DNode.taskItem false " "] 1 =
          some (j, p) → (∀ cc tt, p ≠ DNode.taskItem cc tt) →
        caret = CaretPos.endOfText j) :=
  backspaceInTaskContext_removes_blank_item _ 1 false " " (by decide) (by decide)

/-! ### Claims C1 and C10 -/

/-- A workspace holding exactly one note. -/
def oneNoteState : NotesState :=
  { emptyState with notes := [defaultNoteJan], activeNoteId := some "1" }

/-- A second concrete note, standing for the replacement built by the
deferred `createNewNote`. -/
def secondNote : Note where
  id := "2"
  name := "January 2, 2026"
  content := ""
  createdAt := 1767312000000
  color := some "#5f8bbf"

theorem deleteNote_single (st : NotesState) (n : Note) (h : st.notes = [n]) :
    (deleteNote n.id st).notes = [] ∧
    (deleteNote n.id st).store = some [] ∧
    (deleteNote n.id st).pendingCreate = true := by
  unfold deleteNote
  rw [h]
  simp only [findIndex, beq_self_eq_true, if_pos, List.filter_cons, bne_self_eq_false,
    List.filter_nil, List.length_cons, List.length_nil]
  repeat' split
  all_goals simp_all

theorem runPendingCreate_fires (d : Note) (st : NotesState) (h : st.pendingCreate = true) :
    (runPendingCreate d st).notes = st.notes ++ [d] ∧
    (runPendingCreate d st).activeNoteId = some d.id := by
  unfold runPendingCreate
  rw [h]
  simp only [if_pos]
  exact ⟨createNewNote_notes d _, createNewNote_activeNoteId d _⟩

theorem deleteNoteEnhanced_single (st : NotesState) (n d : Note) (h : st.notes = [n]) :
    (deleteNoteEnhanced n.id d st).notes = [d] ∧
    (deleteNoteEnhanced n.id d st).activeNoteId = some d.id := by
  have hcond1 : ¬ (st.activeNoteId = some n.id ∧ st.notes.length > 1) := by
    rw [h]; simp
  have hcond2 : st.notes.length = 1 := by rw [h]; rfl
  unfold deleteNoteEnhanced
  dsimp only
  rw [if_neg hcond1, if_pos hcond2]
  refine ⟨?_, createNewNote_activeNoteId d _⟩
  rw [createNewNote_notes]
  split <;> simp [h]

/-- Counterexample to claim C1: deleting the only note of a one-note
workspace leaves the note collection **empty** when `deleteNote` returns —
the replacement is only scheduled through a 50 ms `setTimeout`, so no
default note exists synchronously and no note is active. -/
theorem deleteNote_last_note_not_synchronous :
    (deleteNote "1" oneNoteState).notes = [] ∧
    (deleteNote "1" oneNoteState).activeNoteId = none := by
  decide

/-- Claim C1 as amended: deleting the only remaining note empties the
collection and *schedules* creation of a replacement default note via a
deferred callback; once that callback runs, the collection is again
non-empty and the new note is active.  (The enhanced variant's
`deleteNote` creates the replacement within the same invocation, so there
the collection already holds the new active note when the call returns.) -/
theorem deleteNote_last_note_deferred (st : NotesState) (n d : Note) (h : st.notes = [n]) :
    (deleteNote n.id st).notes = [] ∧
    (deleteNote n.id st).pendingCreate = true ∧
    (runPendingCreate d (deleteNote n.id st)).notes = [d] ∧
    (runPendingCreate d (deleteNote n.id st)).activeNoteId = some d.id ∧
    (deleteNoteEnhanced n.id d st).notes = [d] ∧
    (deleteNoteEnhanced n.id d st).activeNoteId = some d.id := by
  obtain ⟨h1, _, h3⟩ := deleteNote_single st n h
  obtain ⟨h4, h5⟩ := runPendingCreate_fires d _ h3
  obtain ⟨h6, h7⟩ := deleteNoteEnhanced_single st n d h
  rw [h1] at h4
  exact ⟨h1, h3, h4, h5, h6, h7⟩

/-- Witness for C1 (amended) at the concrete one-note workspace. -/
theorem deleteNote_last_note_deferred_witness :
    (deleteNote defaultNoteJan.id oneNoteState).notes = [] ∧
    (deleteNote defaultNoteJan.id oneNoteState).pendingCreate = true ∧
    (runPendingCreate secondNote (deleteNote defaultNoteJan.id oneNoteState)).notes =
      [secondNote] ∧
    (runPendingCreate secondNote
        (deleteNote defaultNoteJan.id oneNoteState)).activeNoteId = some secondNote.id ∧
    (deleteNoteEnhanced defaultNoteJan.id secondNote oneNoteState).notes = [secondNote] ∧
    (deleteNoteEnhanced defaultNoteJan.id secondNote oneNoteState).activeNoteId =
      some secondNote.id :=
  deleteNote_last_note_deferred oneNoteState defaultNoteJan secondNote rfl

/-- Claim C10: `deleteNote` writes the filtered list — the empty list, when
the last note is deleted — straight to the persisted store within the same
operation, even though the general save effect refuses to persist an empty
list; a subsequent load of the stored empty array parses successfully into
zero notes and synthesizes no default. -/
theorem deleteNote_persists_empty_store (st : NotesState) (n : Note) (h : st.notes = [n])
    (d : Note) (st2 : NotesState) :
    (deleteNote n.id st).store = some [] ∧
    (deleteNote n.id st).notes = [] ∧
    saveNotesEffect (deleteNote n.id st) = deleteNote n.id st ∧
    (loadNotes (some (Except.ok [])) d st2).notes = [] := by
  obtain ⟨h1, h2, _⟩ := deleteNote_single st n h
  refine ⟨h2, h1, ?_, rfl⟩
  unfold saveNotesEffect
  rw [h1]
  simp

/-- Witness for C10 at the concrete one-note workspace. -/
theorem deleteNote_persists_empty_store_witness :
    (deleteNote defaultNoteJan.id oneNoteState).store = some [] ∧
    (deleteNote defaultNoteJan.id oneNoteState).notes = [] ∧
    saveNotesEffect (deleteNote defaultNoteJan.id oneNoteState) =
      deleteNote defaultNoteJan.id oneNoteState ∧
    (loadNotes (some (Except.ok [])) secondNote emptyState).notes = [] :=
  deleteNote_persists_empty_store oneNoteState defaultNoteJan rfl secondNote emptyState

end JoeApp
